import Mathlib

/-!
Shallow embedding of `src/src/Driver.cpp` (Kaleidoscope-Testing `Driver`),
namespace `kaleidoscope::testing`.

Modelling decisions:
* A keyboard report (`HID_KeyboardReport_Data_t`) is an opaque payload, embedded
  as a natural number.
* An assertion (`_Assertion`, held by `std::shared_ptr`) is embedded as a record
  carrying an identifier, its `eval` predicate over the driver state it can
  observe, and the driver-binding flag set by `setDriver`.
* The C++ `double time_` only ever accumulates the integer `cycle_duration_`,
  so it is embedded exactly as a rational; `int` fields become `Int`,
  counters become `Nat`.
* The subject under test (`::loop()`) emits reports synchronously during a tick;
  a tick is therefore parameterized by the list of reports the subject emits,
  and a multi-tick run by a function from tick index to report list.
* Stream output is peripheral; only the semantically relevant emissions
  (assertion evaluations, error-sink uses, tick boundaries) are recorded, as an
  event trace returned alongside the state.
* The unbounded `while` loop of `Driver::skipTime` is embedded with explicit
  fuel; a `terminated` flag records whether the loop finished within the fuel.
-/

namespace Papilio

/-- Opaque report payload standing for `HID_KeyboardReport_Data_t`. -/
abbrev Report := Nat

/-- The part of the driver state an assertion's `eval()` can observe through its
bound driver pointer. -/
structure Obs where
  currentReport : Report
  cycleId : Nat
  nReportsInCycle : Nat
  nOverallReports : Nat
  time : ℚ
deriving Repr

/-- Embedding of `_Assertion`: an identifier (standing for object identity of
the `shared_ptr`), the `eval` predicate, and the binding flag set by
`setDriver`. -/
structure Assertion where
  aid : Nat
  eval : Obs → Bool
  driver_bound : Bool

/-- Semantically relevant emissions of the driver, recorded as a trace. -/
inductive Event where
  | tick (cycleId : Nat)
  | evalQueuedReport (aid : Nat) (passed : Bool)
  | evalPermanentReport (aid : Nat) (passed : Bool)
  | evalCycleAssertion (aid : Nat) (passed : Bool)
  | errorReportWithoutQueued
  | errorCycleDurationNotSet
  | errorLeftoverQueue
  | errorAssertionsFailed
  | errorsOccurred
  | logAllPassed
deriving DecidableEq, Repr

/-- Embedding of the `Driver` object state (fields of `Driver` in `Driver.h`
as used by `Driver.cpp`; trailing underscores dropped). -/
structure DriverState where
  debug : Bool
  cycle_duration : Int
  abort_on_first_error : Bool
  error_if_report_without_queued_assertions : Bool
  queued_keyboard_report_assertions : List Assertion
  permanent_keyboard_report_assertions : List Assertion
  queued_cycle_assertions : List Assertion
  permanent_cycle_assertions : List Assertion
  n_overall_keyboard_reports : Nat
  n_keyboard_reports_in_cycle : Nat
  cycle_id : Nat
  time : ℚ
  assertions_passed : Bool
  scan_cycles_default_count : Nat
  current_keyboard_report : Report

/-- The observation an assertion makes of the driver state at `eval()` time. -/
def DriverState.obs (st : DriverState) : Obs :=
  { currentReport := st.current_keyboard_report
    cycleId := st.cycle_id
    nReportsInCycle := st.n_keyboard_reports_in_cycle
    nOverallReports := st.n_overall_keyboard_reports
    time := st.time }

/-- Modelled from the spec: `_Assertion::setDriver` is declared in
`assertions/_Assertion.h`, which is not among the sources; per the spec it
binds the assertion to the driver (context injection), recorded here as the
`driver_bound` flag. -/
def setDriver (a : Assertion) : Assertion :=
  { a with driver_bound := true }

/-- A driver state together with the events emitted while reaching it. -/
structure StepResult where
  st : DriverState
  trace : List Event

/-- Embedding of `Driver::processKeyboardReportAssertion` (Driver.cpp:316-325):
evaluate the assertion, render a diagnostic on failure or in debug mode
(peripheral), and AND the outcome into `assertions_passed_`.  Returns the
updated state and the outcome. -/
def processKeyboardReportAssertion (st : DriverState) (a : Assertion) :
    DriverState × Bool :=
  let assertion_passed := a.eval st.obs
  ({ st with assertions_passed := st.assertions_passed && assertion_passed },
   assertion_passed)

/-- Embedding of the loop over `permanent_keyboard_report_assertions_.directAccess()`
in `Driver::processKeyboardReport` (Driver.cpp:306-308). -/
def processPermanentReportAssertions (st : DriverState) :
    List Assertion → StepResult
  | [] => ⟨st, []⟩
  | a :: rest =>
    let p := processKeyboardReportAssertion st a
    let r := processPermanentReportAssertions p.1 rest
    ⟨r.st, Event.evalPermanentReport a.aid p.2 :: r.trace⟩

/-- Embedding of `Driver::processKeyboardReport` (Driver.cpp:280-314): store the
report, bump both report counters, pop and evaluate the front queued assertion
if the queue is non-empty, evaluate every permanent report assertion, and emit
an error if the queue was empty while strict mode
(`error_if_report_without_queued_assertions_`) is on. -/
def processKeyboardReport (st : DriverState) (report_data : Report) : StepResult :=
  let st := { st with
    current_keyboard_report := report_data
    n_overall_keyboard_reports := st.n_overall_keyboard_reports + 1
    n_keyboard_reports_in_cycle := st.n_keyboard_reports_in_cycle + 1 }
  let n_assertions_queued := st.queued_keyboard_report_assertions.length
  let r1 : StepResult :=
    match st.queued_keyboard_report_assertions with
    | [] => ⟨st, []⟩
    | a :: rest =>
      let st := { st with queued_keyboard_report_assertions := rest }
      let p := processKeyboardReportAssertion st a
      ⟨p.1, [Event.evalQueuedReport a.aid p.2]⟩
  let r2 := processPermanentReportAssertions r1.st
              r1.st.permanent_keyboard_report_assertions
  let e3 := if n_assertions_queued = 0 &&
               st.error_if_report_without_queued_assertions
            then [Event.errorReportWithoutQueued] else []
  ⟨r2.st, r1.trace ++ r2.trace ++ e3⟩

/-- The synchronous report deliveries performed by the subject under test
during `::loop()` (Driver.cpp:343): each emitted report is forwarded through
`KeyboardReportConsumer::processKeyboardReport` to
`Driver::processKeyboardReport`, in emission order. -/
def processReportList (st : DriverState) : List Report → StepResult
  | [] => ⟨st, []⟩
  | rd :: rest =>
    let r1 := processKeyboardReport st rd
    let r2 := processReportList r1.st rest
    ⟨r2.st, r1.trace ++ r2.trace⟩

/-- Modelled from the spec: `Driver::processCycleAssertions` is declared in
`Driver.h`, which is not among the sources.  Per the spec's shared evaluation
policy (§4.2, steps 6-8) each assertion's `eval()` is called, a diagnostic is
rendered on failure or in debug mode (peripheral), and the outcome is ANDed
into the aggregate pass flag. -/
def processCycleAssertions (st : DriverState) : List Assertion → StepResult
  | [] => ⟨st, []⟩
  | a :: rest =>
    let passed := a.eval st.obs
    let st' := { st with assertions_passed := st.assertions_passed && passed }
    let r := processCycleAssertions st' rest
    ⟨r.st, Event.evalCycleAssertion a.aid passed :: r.trace⟩

/-- Result of one tick: the driver state, the (possibly rebound) transient
stop-assertion list, and the emitted trace. -/
structure CycleResult where
  st : DriverState
  stopList : List Assertion
  trace : List Event

/-- Step 6 of the one-tick algorithm (Driver.cpp:358-362): evaluate the
transient stop-assertion list, only when it is non-empty. -/
def stopPhase (st : DriverState) (on_stop : List Assertion) : StepResult :=
  if !on_stop.isEmpty then processCycleAssertions st on_stop
  else ⟨st, []⟩

/-- Step 7 of the one-tick algorithm (Driver.cpp:364-370): evaluate every
queued cycle assertion via `directAccess()`, then clear the queue, only when
it is non-empty. -/
def queuedCyclePhase (st : DriverState) : StepResult :=
  if !st.queued_cycle_assertions.isEmpty then
    let t := processCycleAssertions st st.queued_cycle_assertions
    ⟨{ t.st with queued_cycle_assertions := [] }, t.trace⟩
  else ⟨st, []⟩

/-- Step 8 of the one-tick algorithm (Driver.cpp:372-377): evaluate every
permanent cycle assertion, only when the collection is non-empty. -/
def permanentCyclePhase (st : DriverState) : StepResult :=
  if !st.permanent_cycle_assertions.isEmpty then
    processCycleAssertions st st.permanent_cycle_assertions
  else ⟨st, []⟩

/-- Steps 6-8 of the one-tick algorithm (Driver.cpp:358-377) in sequence. -/
def cycleEndAssertions (st : DriverState) (on_stop : List Assertion) :
    StepResult :=
  let r2 := stopPhase st on_stop
  let r3 := queuedCyclePhase r2.st
  let r4 := permanentCyclePhase r3.st
  ⟨r4.st, r2.trace ++ r3.trace ++ r4.trace⟩

/-- Step 1 of the one-tick algorithm (Driver.cpp:330-331): increment the cycle
id and reset the per-cycle report counter. -/
def tickStart (st : DriverState) : DriverState :=
  { st with cycle_id := st.cycle_id + 1, n_keyboard_reports_in_cycle := 0 }

/-- Step 5 of the one-tick algorithm, `time_ += cycle_duration_`
(Driver.cpp:354). -/
def accumulateTime (st : DriverState) (d : Int) : DriverState :=
  { st with time := st.time + (d : ℚ) }

/-- Embedding of `Driver::cycleInternal` (Driver.cpp:327-378): increment the
cycle id, reset the per-cycle report counter, bind the transient list to the
driver (the source guards this with `on_stop_assertion_list.empty()` —
binding is mapped over the list exactly when it is empty, Driver.cpp:337),
run the subject's tick (`::loop()`, which synchronously delivers `reports`),
accumulate the cycle duration into the elapsed time, then run the
end-of-cycle assertion phases. -/
def cycleInternal (st : DriverState) (on_stop_assertion_list : List Assertion)
    (only_log_reports : Bool) (reports : List Report) : CycleResult :=
  let st := tickStart st
  let on_stop_assertion_list :=
    if on_stop_assertion_list.isEmpty then on_stop_assertion_list.map setDriver
    else on_stop_assertion_list
  let tickEv := Event.tick st.cycle_id
  let r1 := processReportList st reports
  let st2 := accumulateTime r1.st st.cycle_duration
  let r2 := cycleEndAssertions st2 on_stop_assertion_list
  ⟨r2.st, on_stop_assertion_list, tickEv :: (r1.trace ++ r2.trace)⟩

/-- The `for(int i = 0; i < n; ++i)` loop of `Driver::cycles`
(Driver.cpp:180-182), iterated over the (already clamped) number of
iterations; `emits` gives the reports of each successive tick. -/
def cyclesLoop : Nat → DriverState → List Assertion → (Nat → List Report) →
    CycleResult
  | 0, st, ca, _ => ⟨st, ca, []⟩
  | Nat.succ n, st, ca, emits =>
    let r := cycleInternal st ca true (emits 0)
    let rest := cyclesLoop n r.st r.stopList (fun k => emits (k + 1))
    ⟨rest.st, rest.stopList, r.trace ++ rest.trace⟩

/-- Embedding of `Driver::cycles` (Driver.cpp:165-191): replace `n == 0` by the
configured default count, bind the stop-assertion list to the driver when
non-empty, run the loop (`for(int i = 0; i < n; ++i)` runs `n.toNat` times for
an `int` argument `n`), and finally evaluate the stop-assertion list when
non-empty. -/
def cycles (st : DriverState) (n : Int) (on_stop_assertion_list : List Assertion)
    (cycle_assertion_list : List Assertion) (emits : Nat → List Report) :
    StepResult :=
  let n := if n = 0 then (st.scan_cycles_default_count : Int) else n
  let on_stop_assertion_list :=
    if !on_stop_assertion_list.isEmpty then on_stop_assertion_list.map setDriver
    else on_stop_assertion_list
  let r := cyclesLoop n.toNat st cycle_assertion_list emits
  if !on_stop_assertion_list.isEmpty then
    let r2 := processCycleAssertions r.st on_stop_assertion_list
    ⟨r2.st, r.trace ++ r2.trace⟩
  else ⟨r.st, r.trace⟩

/-- Embedding of `Driver::checkCycleDurationSet` (Driver.cpp:380-385): emit a
configuration error through the error sink when the cycle duration is zero. -/
def checkCycleDurationSet (st : DriverState) : List Event :=
  if st.cycle_duration = 0 then [Event.errorCycleDurationNotSet] else []

/-- Result of the fuelled `while` loop of `skipTime`: final state, trace, and
whether the loop condition became false within the fuel. -/
structure SkipLoopResult where
  st : DriverState
  trace : List Event
  terminated : Bool

/-- Embedding of the `while(elapsed_time < delta_t)` loop of `Driver::skipTime`
(Driver.cpp:210-215) with explicit fuel: each iteration runs `cycleInternal`
with an empty dummy stop list and recomputes `elapsed_time = time_ - start_time`.
When the fuel runs out while the condition still holds, the returned state is
the snapshot at that point and `terminated` is `false` (the C++ loop would
still be running). -/
def skipTimeLoop (start_time delta_t : ℚ) :
    Nat → (Nat → List Report) → ℚ → DriverState → SkipLoopResult
  | 0, _, elapsed_time, st =>
    if elapsed_time < delta_t then ⟨st, [], false⟩ else ⟨st, [], true⟩
  | Nat.succ fuel, emits, elapsed_time, st =>
    if elapsed_time < delta_t then
      let r := cycleInternal st [] true (emits 0)
      let rest := skipTimeLoop start_time delta_t fuel (fun k => emits (k + 1))
                    (r.st.time - start_time) r.st
      ⟨rest.st, r.trace ++ rest.trace, rest.terminated⟩
    else ⟨st, [], true⟩

/-- Result of `skipTime`: final state, the stop-assertion list (rebound when
non-empty), the trace, and loop termination within the fuel. -/
structure SkipResult where
  st : DriverState
  stopList : List Assertion
  trace : List Event
  terminated : Bool

/-- Embedding of `Driver::skipTime` (Driver.cpp:193-226): check that the cycle
duration is set, bind the stop-assertion list when non-empty, run the fuelled
loop from `elapsed_time = 0`, and, if the loop finished, evaluate the
stop-assertion list when non-empty (when the fuel ran out the C++ loop is
still running and the post-loop code is unreached). -/
def skipTime (st : DriverState) (delta_t : ℚ)
    (on_stop_assertion_list : List Assertion) (emits : Nat → List Report)
    (fuel : Nat) : SkipResult :=
  let e0 := checkCycleDurationSet st
  let on_stop_assertion_list :=
    if !on_stop_assertion_list.isEmpty then on_stop_assertion_list.map setDriver
    else on_stop_assertion_list
  let start_time := st.time
  let r := skipTimeLoop start_time delta_t fuel emits 0 st
  if r.terminated then
    if !on_stop_assertion_list.isEmpty then
      let r2 := processCycleAssertions r.st on_stop_assertion_list
      ⟨r2.st, on_stop_assertion_list, e0 ++ r.trace ++ r2.trace, true⟩
    else ⟨r.st, on_stop_assertion_list, e0 ++ r.trace, true⟩
  else ⟨r.st, on_stop_assertion_list, e0 ++ r.trace, false⟩

/-- Result of `checkStatus`: the (unmodified — the C++ method is `const`)
state, the returned boolean, and the emitted diagnostics. -/
structure StatusResult where
  st : DriverState
  ok : Bool
  trace : List Event

/-- Embedding of `Driver::checkStatus` (Driver.cpp:233-257): `success` starts
true, is cleared when queued keyboard-report assertions are left over and when
`assertions_passed_` is false (each with an error-sink emission), and is
returned after a final log or error emission.  The method is `const`: the
state is returned unchanged. -/
def checkStatus (st : DriverState) : StatusResult :=
  let success1 : Bool :=
    if !st.queued_keyboard_report_assertions.isEmpty then false else true
  let e1 := if !st.queued_keyboard_report_assertions.isEmpty then
              [Event.errorLeftoverQueue] else []
  let success2 : Bool := if !st.assertions_passed then false else success1
  let e2 := if !st.assertions_passed then [Event.errorAssertionsFailed] else []
  if success2 then ⟨st, true, e1 ++ e2 ++ [Event.logAllPassed]⟩
  else ⟨st, false, e1 ++ e2 ++ [Event.errorsOccurred]⟩

/-- Predicate for tick events in a trace. -/
def isTick : Event → Bool
  | Event.tick _ => true
  | _ => false

/-- Number of ticks recorded in a trace. -/
def countTicks (tr : List Event) : Nat := tr.countP isTick

/-- Predicate for permanent-report-assertion evaluations of a given assertion
identifier. -/
def isPermanentEvalOf (aid : Nat) : Event → Bool
  | Event.evalPermanentReport i _ => i == aid
  | _ => false

/-- Number of evaluations of the permanent report assertion with identifier
`aid` recorded in a trace. -/
def countPermanentEvalsOf (aid : Nat) (tr : List Event) : Nat :=
  tr.countP (isPermanentEvalOf aid)

/-- Predicate for cycle-assertion evaluations in a trace. -/
def isCycleEval : Event → Bool
  | Event.evalCycleAssertion _ _ => true
  | _ => false

/-- Number of cycle-assertion evaluations recorded in a trace. -/
def countCycleEvals (tr : List Event) : Nat := tr.countP isCycleEval

/-- The observation made by assertions evaluated during
`processKeyboardReport st rd`: the report is already stored and both report
counters are already incremented. -/
def reportObs (st : DriverState) (rd : Report) : Obs :=
  { currentReport := rd
    cycleId := st.cycle_id
    nReportsInCycle := st.n_keyboard_reports_in_cycle + 1
    nOverallReports := st.n_overall_keyboard_reports + 1
    time := st.time }

/-! ### Closed forms for the assertion-evaluation loops -/

theorem obs_set_passed (st : DriverState) (b : Bool) :
    DriverState.obs { st with assertions_passed := b } = st.obs := rfl

theorem processCycleAssertions_spec (as : List Assertion) :
    ∀ st : DriverState,
      (processCycleAssertions st as).st =
        { st with assertions_passed :=
            st.assertions_passed && as.all (fun a => a.eval st.obs) } ∧
      (processCycleAssertions st as).trace =
        as.map (fun a => Event.evalCycleAssertion a.aid (a.eval st.obs)) := by
  induction as with
  | nil => intro st; exact ⟨by simp [processCycleAssertions], rfl⟩
  | cons a rest ih =>
    intro st
    have h := ih { st with assertions_passed :=
      st.assertions_passed && a.eval st.obs }
    refine ⟨?_, ?_⟩
    · simp only [processCycleAssertions, h.1, obs_set_passed, List.all_cons,
        Bool.and_assoc]
    · simp only [processCycleAssertions, h.2, obs_set_passed, List.map_cons]

theorem processCycleAssertions_st (st : DriverState) (as : List Assertion) :
    (processCycleAssertions st as).st =
      { st with assertions_passed :=
          st.assertions_passed && as.all (fun a => a.eval st.obs) } :=
  (processCycleAssertions_spec as st).1

theorem processCycleAssertions_trace (st : DriverState) (as : List Assertion) :
    (processCycleAssertions st as).trace =
      as.map (fun a => Event.evalCycleAssertion a.aid (a.eval st.obs)) :=
  (processCycleAssertions_spec as st).2

theorem processPermanentReportAssertions_spec (as : List Assertion) :
    ∀ st : DriverState,
      (processPermanentReportAssertions st as).st =
        { st with assertions_passed :=
            st.assertions_passed && as.all (fun a => a.eval st.obs) } ∧
      (processPermanentReportAssertions st as).trace =
        as.map (fun a => Event.evalPermanentReport a.aid (a.eval st.obs)) := by
  induction as with
  | nil => intro st; exact ⟨by simp [processPermanentReportAssertions], rfl⟩
  | cons a rest ih =>
    intro st
    have h := ih { st with assertions_passed :=
      st.assertions_passed && a.eval st.obs }
    refine ⟨?_, ?_⟩
    · simp only [processPermanentReportAssertions,
        processKeyboardReportAssertion, h.1, obs_set_passed, List.all_cons,
        Bool.and_assoc]
    · simp only [processPermanentReportAssertions,
        processKeyboardReportAssertion, h.2, obs_set_passed, List.map_cons]

theorem processKeyboardReport_nil (st : DriverState) (rd : Report)
    (h : st.queued_keyboard_report_assertions = []) :
    processKeyboardReport st rd =
      ⟨{ st with
          current_keyboard_report := rd
          n_overall_keyboard_reports := st.n_overall_keyboard_reports + 1
          n_keyboard_reports_in_cycle := st.n_keyboard_reports_in_cycle + 1
          assertions_passed := st.assertions_passed &&
            st.permanent_keyboard_report_assertions.all
              (fun a => a.eval (reportObs st rd)) },
        st.permanent_keyboard_report_assertions.map
          (fun a => Event.evalPermanentReport a.aid (a.eval (reportObs st rd))) ++
        (if st.error_if_report_without_queued_assertions then
           [Event.errorReportWithoutQueued] else [])⟩ := by
  unfold processKeyboardReport
  simp only [h, List.length_nil]
  rw [(processPermanentReportAssertions_spec _ _).1,
    (processPermanentReportAssertions_spec _ _).2]
  simp [reportObs, DriverState.obs]

theorem processKeyboardReport_cons (st : DriverState) (rd : Report)
    (a : Assertion) (rest : List Assertion)
    (h : st.queued_keyboard_report_assertions = a :: rest) :
    processKeyboardReport st rd =
      ⟨{ st with
          current_keyboard_report := rd
          n_overall_keyboard_reports := st.n_overall_keyboard_reports + 1
          n_keyboard_reports_in_cycle := st.n_keyboard_reports_in_cycle + 1
          queued_keyboard_report_assertions := rest
          assertions_passed := (st.assertions_passed &&
            a.eval (reportObs st rd)) &&
            st.permanent_keyboard_report_assertions.all
              (fun b => b.eval (reportObs st rd)) },
        Event.evalQueuedReport a.aid (a.eval (reportObs st rd)) ::
          st.permanent_keyboard_report_assertions.map
            (fun b => Event.evalPermanentReport b.aid
              (b.eval (reportObs st rd)))⟩ := by
  unfold processKeyboardReport
  simp only [h, List.length_cons, processKeyboardReportAssertion]
  rw [(processPermanentReportAssertions_spec _ _).1,
    (processPermanentReportAssertions_spec _ _).2]
  simp [reportObs, DriverState.obs]

/-! ### Frame lemmas: which parts of the state each operation leaves alone -/

theorem processKeyboardReport_frame (st : DriverState) (rd : Report) :
    (processKeyboardReport st rd).st.cycle_id = st.cycle_id ∧
    (processKeyboardReport st rd).st.time = st.time ∧
    (processKeyboardReport st rd).st.cycle_duration = st.cycle_duration ∧
    (processKeyboardReport st rd).st.permanent_keyboard_report_assertions =
      st.permanent_keyboard_report_assertions ∧
    (processKeyboardReport st rd).st.queued_cycle_assertions =
      st.queued_cycle_assertions ∧
    (processKeyboardReport st rd).st.permanent_cycle_assertions =
      st.permanent_cycle_assertions ∧
    (processKeyboardReport st rd).st.error_if_report_without_queued_assertions =
      st.error_if_report_without_queued_assertions ∧
    (processKeyboardReport st rd).st.scan_cycles_default_count =
      st.scan_cycles_default_count := by
  cases h : st.queued_keyboard_report_assertions with
  | nil => rw [processKeyboardReport_nil st rd h]; exact ⟨rfl, rfl, rfl, rfl, rfl, rfl, rfl, rfl⟩
  | cons a rest => rw [processKeyboardReport_cons st rd a rest h]; exact ⟨rfl, rfl, rfl, rfl, rfl, rfl, rfl, rfl⟩

theorem processReportList_frame (rs : List Report) :
    ∀ st : DriverState,
      (processReportList st rs).st.cycle_id = st.cycle_id ∧
      (processReportList st rs).st.time = st.time ∧
      (processReportList st rs).st.cycle_duration = st.cycle_duration ∧
      (processReportList st rs).st.permanent_keyboard_report_assertions =
        st.permanent_keyboard_report_assertions ∧
      (processReportList st rs).st.queued_cycle_assertions =
        st.queued_cycle_assertions ∧
      (processReportList st rs).st.permanent_cycle_assertions =
        st.permanent_cycle_assertions ∧
      (processReportList st rs).st.error_if_report_without_queued_assertions =
        st.error_if_report_without_queued_assertions ∧
      (processReportList st rs).st.scan_cycles_default_count =
        st.scan_cycles_default_count := by
  induction rs with
  | nil => intro st; exact ⟨rfl, rfl, rfl, rfl, rfl, rfl, rfl, rfl⟩
  | cons rd rest ih =>
    intro st
    obtain ⟨h1, h2, h3, h4, h5, h6, h7, h8⟩ := processKeyboardReport_frame st rd
    obtain ⟨g1, g2, g3, g4, g5, g6, g7, g8⟩ := ih (processKeyboardReport st rd).st
    exact ⟨g1.trans h1, g2.trans h2, g3.trans h3, g4.trans h4, g5.trans h5,
      g6.trans h6, g7.trans h7, g8.trans h8⟩

/-! ### Event-shape lemmas -/

theorem isCycleEval_elim (e : Event) (h : isCycleEval e = true) :
    isTick e = false ∧ (∀ aid, isPermanentEvalOf aid e = false) ∧
    e ≠ Event.errorCycleDurationNotSet := by
  cases e <;> simp_all [isCycleEval, isTick, isPermanentEvalOf]

theorem processCycleAssertions_events (st : DriverState) (as : List Assertion) :
    ∀ e ∈ (processCycleAssertions st as).trace, isCycleEval e = true := by
  rw [processCycleAssertions_trace]
  intro e he
  obtain ⟨a, _, rfl⟩ := List.mem_map.mp he
  rfl

theorem processKeyboardReport_events (st : DriverState) (rd : Report) :
    ∀ e ∈ (processKeyboardReport st rd).trace,
      isTick e = false ∧ isCycleEval e = false ∧
      e ≠ Event.errorCycleDurationNotSet := by
  cases h : st.queued_keyboard_report_assertions with
  | nil =>
    rw [processKeyboardReport_nil st rd h]
    intro e he
    simp only [List.mem_append, List.mem_map] at he
    rcases he with ⟨a, _, rfl⟩ | he
    · exact ⟨rfl, rfl, by simp⟩
    · rcases Decidable.em st.error_if_report_without_queued_assertions with hs | hs <;>
        simp [hs] at he
      subst he; exact ⟨rfl, rfl, by simp⟩
  | cons a rest =>
    rw [processKeyboardReport_cons st rd a rest h]
    intro e he
    simp only [List.mem_cons, List.mem_map] at he
    rcases he with rfl | ⟨b, _, rfl⟩
    · exact ⟨rfl, rfl, by simp⟩
    · exact ⟨rfl, rfl, by simp⟩

theorem processReportList_events (rs : List Report) :
    ∀ (st : DriverState), ∀ e ∈ (processReportList st rs).trace,
      isTick e = false ∧ isCycleEval e = false ∧
      e ≠ Event.errorCycleDurationNotSet := by
  induction rs with
  | nil => intro st e he; simp [processReportList] at he
  | cons rd rest ih =>
    intro st e he
    simp only [processReportList, List.mem_append] at he
    rcases he with he | he
    · exact processKeyboardReport_events st rd e he
    · exact ih (processKeyboardReport st rd).st e he

theorem countP_eq_zero_of (p : Event → Bool) (tr : List Event)
    (h : ∀ e ∈ tr, p e = false) : tr.countP p = 0 :=
  List.countP_eq_zero.mpr (by simpa using h)

theorem stopPhase_events (st : DriverState) (l : List Assertion) :
    ∀ e ∈ (stopPhase st l).trace, isCycleEval e = true := by
  unfold stopPhase
  by_cases h : (!l.isEmpty) = true
  · simpa [h] using processCycleAssertions_events st l
  · intro e he; simp [h] at he

theorem queuedCyclePhase_events (st : DriverState) :
    ∀ e ∈ (queuedCyclePhase st).trace, isCycleEval e = true := by
  unfold queuedCyclePhase
  by_cases h : (!st.queued_cycle_assertions.isEmpty) = true
  · simpa [h] using processCycleAssertions_events st st.queued_cycle_assertions
  · intro e he; simp [h] at he

theorem permanentCyclePhase_events (st : DriverState) :
    ∀ e ∈ (permanentCyclePhase st).trace, isCycleEval e = true := by
  unfold permanentCyclePhase
  by_cases h : (!st.permanent_cycle_assertions.isEmpty) = true
  · simpa [h] using processCycleAssertions_events st st.permanent_cycle_assertions
  · intro e he; simp [h] at he

theorem cycleEndAssertions_events (st : DriverState) (l : List Assertion) :
    ∀ e ∈ (cycleEndAssertions st l).trace, isCycleEval e = true := by
  intro e he
  simp only [cycleEndAssertions, List.mem_append] at he
  rcases he with (he | he) | he
  · exact stopPhase_events st l e he
  · exact queuedCyclePhase_events _ e he
  · exact permanentCyclePhase_events _ e he

theorem stopPhase_spec (st : DriverState) (l : List Assertion) :
    (stopPhase st l).st.cycle_id = st.cycle_id ∧
    (stopPhase st l).st.time = st.time ∧
    (stopPhase st l).st.cycle_duration = st.cycle_duration ∧
    (stopPhase st l).st.queued_keyboard_report_assertions =
      st.queued_keyboard_report_assertions ∧
    (stopPhase st l).st.permanent_keyboard_report_assertions =
      st.permanent_keyboard_report_assertions ∧
    (stopPhase st l).st.queued_cycle_assertions =
      st.queued_cycle_assertions ∧
    (stopPhase st l).st.permanent_cycle_assertions =
      st.permanent_cycle_assertions ∧
    (stopPhase st l).st.error_if_report_without_queued_assertions =
      st.error_if_report_without_queued_assertions ∧
    (stopPhase st l).st.scan_cycles_default_count =
      st.scan_cycles_default_count := by
  unfold stopPhase
  by_cases h : (!l.isEmpty) = true <;>
    simp [h, processCycleAssertions_st]

theorem queuedCyclePhase_spec (st : DriverState) :
    (queuedCyclePhase st).st.cycle_id = st.cycle_id ∧
    (queuedCyclePhase st).st.time = st.time ∧
    (queuedCyclePhase st).st.cycle_duration = st.cycle_duration ∧
    (queuedCyclePhase st).st.queued_keyboard_report_assertions =
      st.queued_keyboard_report_assertions ∧
    (queuedCyclePhase st).st.permanent_keyboard_report_assertions =
      st.permanent_keyboard_report_assertions ∧
    (queuedCyclePhase st).st.queued_cycle_assertions = [] ∧
    (queuedCyclePhase st).st.permanent_cycle_assertions =
      st.permanent_cycle_assertions ∧
    (queuedCyclePhase st).st.error_if_report_without_queued_assertions =
      st.error_if_report_without_queued_assertions ∧
    (queuedCyclePhase st).st.scan_cycles_default_count =
      st.scan_cycles_default_count := by
  unfold queuedCyclePhase
  by_cases h : (!st.queued_cycle_assertions.isEmpty) = true <;>
    simp [h, processCycleAssertions_st] <;>
    simp_all [List.isEmpty_iff]

theorem permanentCyclePhase_spec (st : DriverState) :
    (permanentCyclePhase st).st.cycle_id = st.cycle_id ∧
    (permanentCyclePhase st).st.time = st.time ∧
    (permanentCyclePhase st).st.cycle_duration = st.cycle_duration ∧
    (permanentCyclePhase st).st.queued_keyboard_report_assertions =
      st.queued_keyboard_report_assertions ∧
    (permanentCyclePhase st).st.permanent_keyboard_report_assertions =
      st.permanent_keyboard_report_assertions ∧
    (permanentCyclePhase st).st.queued_cycle_assertions =
      st.queued_cycle_assertions ∧
    (permanentCyclePhase st).st.permanent_cycle_assertions =
      st.permanent_cycle_assertions ∧
    (permanentCyclePhase st).st.error_if_report_without_queued_assertions =
      st.error_if_report_without_queued_assertions ∧
    (permanentCyclePhase st).st.scan_cycles_default_count =
      st.scan_cycles_default_count := by
  unfold permanentCyclePhase
  by_cases h : (!st.permanent_cycle_assertions.isEmpty) = true <;>
    simp [h, processCycleAssertions_st]

theorem cycleEndAssertions_spec (st : DriverState) (l : List Assertion) :
    (cycleEndAssertions st l).st.cycle_id = st.cycle_id ∧
    (cycleEndAssertions st l).st.time = st.time ∧
    (cycleEndAssertions st l).st.cycle_duration = st.cycle_duration ∧
    (cycleEndAssertions st l).st.queued_keyboard_report_assertions =
      st.queued_keyboard_report_assertions ∧
    (cycleEndAssertions st l).st.permanent_keyboard_report_assertions =
      st.permanent_keyboard_report_assertions ∧
    (cycleEndAssertions st l).st.queued_cycle_assertions = [] ∧
    (cycleEndAssertions st l).st.permanent_cycle_assertions =
      st.permanent_cycle_assertions ∧
    (cycleEndAssertions st l).st.error_if_report_without_queued_assertions =
      st.error_if_report_without_queued_assertions ∧
    (cycleEndAssertions st l).st.scan_cycles_default_count =
      st.scan_cycles_default_count := by
  obtain ⟨a1, a2, a3, a4, a5, a6, a7, a8, a9⟩ := stopPhase_spec st l
  obtain ⟨b1, b2, b3, b4, b5, b6, b7, b8, b9⟩ :=
    queuedCyclePhase_spec (stopPhase st l).st
  obtain ⟨c1, c2, c3, c4, c5, c6, c7, c8, c9⟩ :=
    permanentCyclePhase_spec (queuedCyclePhase (stopPhase st l).st).st
  unfold cycleEndAssertions
  exact ⟨c1.trans (b1.trans a1), c2.trans (b2.trans a2), c3.trans (b3.trans a3),
    c4.trans (b4.trans a4), c5.trans (b5.trans a5), c6.trans b6,
    c7.trans (b7.trans a7), c8.trans (b8.trans a8), c9.trans (b9.trans a9)⟩

theorem cEA_cycle_id (st : DriverState) (l : List Assertion) :
    (cycleEndAssertions st l).st.cycle_id = st.cycle_id :=
  (cycleEndAssertions_spec st l).1

theorem cEA_time (st : DriverState) (l : List Assertion) :
    (cycleEndAssertions st l).st.time = st.time :=
  (cycleEndAssertions_spec st l).2.1

theorem cEA_duration (st : DriverState) (l : List Assertion) :
    (cycleEndAssertions st l).st.cycle_duration = st.cycle_duration :=
  (cycleEndAssertions_spec st l).2.2.1

theorem cEA_queued_kb (st : DriverState) (l : List Assertion) :
    (cycleEndAssertions st l).st.queued_keyboard_report_assertions =
      st.queued_keyboard_report_assertions :=
  (cycleEndAssertions_spec st l).2.2.2.1

theorem cEA_permanent_kb (st : DriverState) (l : List Assertion) :
    (cycleEndAssertions st l).st.permanent_keyboard_report_assertions =
      st.permanent_keyboard_report_assertions :=
  (cycleEndAssertions_spec st l).2.2.2.2.1

theorem cEA_queued_cycle (st : DriverState) (l : List Assertion) :
    (cycleEndAssertions st l).st.queued_cycle_assertions = [] :=
  (cycleEndAssertions_spec st l).2.2.2.2.2.1

theorem cEA_permanent_cycle (st : DriverState) (l : List Assertion) :
    (cycleEndAssertions st l).st.permanent_cycle_assertions =
      st.permanent_cycle_assertions :=
  (cycleEndAssertions_spec st l).2.2.2.2.2.2.1

theorem cEA_strict (st : DriverState) (l : List Assertion) :
    (cycleEndAssertions st l).st.error_if_report_without_queued_assertions =
      st.error_if_report_without_queued_assertions :=
  (cycleEndAssertions_spec st l).2.2.2.2.2.2.2.1

theorem cEA_default_count (st : DriverState) (l : List Assertion) :
    (cycleEndAssertions st l).st.scan_cycles_default_count =
      st.scan_cycles_default_count :=
  (cycleEndAssertions_spec st l).2.2.2.2.2.2.2.2

theorem cycleEndAssertions_nil (st : DriverState)
    (h3 : st.queued_cycle_assertions = [])
    (h4 : st.permanent_cycle_assertions = []) :
    cycleEndAssertions st [] = ⟨st, []⟩ := by
  unfold cycleEndAssertions stopPhase queuedCyclePhase permanentCyclePhase
  simp [h3, h4]

theorem prl_cycle_id (st : DriverState) (rs : List Report) :
    (processReportList st rs).st.cycle_id = st.cycle_id :=
  (processReportList_frame rs st).1

theorem prl_time (st : DriverState) (rs : List Report) :
    (processReportList st rs).st.time = st.time :=
  (processReportList_frame rs st).2.1

theorem prl_duration (st : DriverState) (rs : List Report) :
    (processReportList st rs).st.cycle_duration = st.cycle_duration :=
  (processReportList_frame rs st).2.2.1

theorem prl_permanent_kb (st : DriverState) (rs : List Report) :
    (processReportList st rs).st.permanent_keyboard_report_assertions =
      st.permanent_keyboard_report_assertions :=
  (processReportList_frame rs st).2.2.2.1

theorem prl_queued_cycle (st : DriverState) (rs : List Report) :
    (processReportList st rs).st.queued_cycle_assertions =
      st.queued_cycle_assertions :=
  (processReportList_frame rs st).2.2.2.2.1

theorem prl_permanent_cycle (st : DriverState) (rs : List Report) :
    (processReportList st rs).st.permanent_cycle_assertions =
      st.permanent_cycle_assertions :=
  (processReportList_frame rs st).2.2.2.2.2.1

theorem prl_strict (st : DriverState) (rs : List Report) :
    (processReportList st rs).st.error_if_report_without_queued_assertions =
      st.error_if_report_without_queued_assertions :=
  (processReportList_frame rs st).2.2.2.2.2.2.1

theorem prl_default_count (st : DriverState) (rs : List Report) :
    (processReportList st rs).st.scan_cycles_default_count =
      st.scan_cycles_default_count :=
  (processReportList_frame rs st).2.2.2.2.2.2.2

/-! ### Lemmas about a single tick -/

theorem cycleInternal_frame (st : DriverState) (l : List Assertion) (b : Bool)
    (rs : List Report) :
    (cycleInternal st l b rs).st.cycle_id = st.cycle_id + 1 ∧
    (cycleInternal st l b rs).st.time = st.time + (st.cycle_duration : ℚ) ∧
    (cycleInternal st l b rs).st.cycle_duration = st.cycle_duration ∧
    (cycleInternal st l b rs).st.permanent_keyboard_report_assertions =
      st.permanent_keyboard_report_assertions ∧
    (cycleInternal st l b rs).st.queued_cycle_assertions = [] ∧
    (cycleInternal st l b rs).st.permanent_cycle_assertions =
      st.permanent_cycle_assertions ∧
    (cycleInternal st l b rs).st.error_if_report_without_queued_assertions =
      st.error_if_report_without_queued_assertions ∧
    (cycleInternal st l b rs).st.scan_cycles_default_count =
      st.scan_cycles_default_count := by
  refine ⟨?_, ?_, ?_, ?_, ?_, ?_, ?_, ?_⟩ <;>
    simp [cycleInternal, tickStart, accumulateTime, cEA_cycle_id, cEA_time,
      cEA_duration, cEA_permanent_kb,
      cEA_queued_cycle, cEA_permanent_cycle, cEA_strict, cEA_default_count,
      prl_cycle_id, prl_time, prl_duration, prl_permanent_kb, prl_queued_cycle,
      prl_permanent_cycle, prl_strict, prl_default_count]

theorem cycleInternal_stopList (st : DriverState) (l : List Assertion) (b : Bool)
    (rs : List Report) : (cycleInternal st l b rs).stopList = l := by
  simp only [cycleInternal]
  cases hl : l.isEmpty
  · simp [hl]
  · simp [hl, List.isEmpty_iff.mp hl]

theorem cycleInternal_countTicks (st : DriverState) (l : List Assertion)
    (b : Bool) (rs : List Report) :
    countTicks (cycleInternal st l b rs).trace = 1 := by
  have h1 : ∀ s : DriverState, countTicks (processReportList s rs).trace = 0 :=
    fun s =>
    countP_eq_zero_of _ _ (fun e he => (processReportList_events rs s e he).1)
  have h2 : ∀ st' : DriverState, ∀ l' : List Assertion,
      countTicks (cycleEndAssertions st' l').trace = 0 := fun st' l' =>
    countP_eq_zero_of _ _ (fun e he =>
      (isCycleEval_elim e (cycleEndAssertions_events st' l' e he)).1)
  simp only [cycleInternal, countTicks, List.countP_cons, List.countP_append]
  simp only [countTicks] at h1 h2
  simp [h1, h2, isTick]

theorem cycleInternal_no_config_error (st : DriverState) (l : List Assertion)
    (b : Bool) (rs : List Report) :
    Event.errorCycleDurationNotSet ∉ (cycleInternal st l b rs).trace := by
  intro hmem
  simp only [cycleInternal, List.mem_cons, List.mem_append] at hmem
  rcases hmem with h | h | h
  · exact Event.noConfusion h
  · exact (processReportList_events rs _ _ h).2.2 rfl
  · exact (isCycleEval_elim _ (cycleEndAssertions_events _ _ _ h)).2.2 rfl

/-! ### Runs with no registered assertions (claim C8 support) -/

theorem processKeyboardReport_no_assertions (st : DriverState) (rd : Report)
    (h1 : st.queued_keyboard_report_assertions = [])
    (h2 : st.permanent_keyboard_report_assertions = []) :
    (processKeyboardReport st rd).st.queued_keyboard_report_assertions = [] ∧
    (processKeyboardReport st rd).st.assertions_passed =
      st.assertions_passed := by
  rw [processKeyboardReport_nil st rd h1]
  exact ⟨h1, by simp [h2]⟩

theorem processReportList_no_assertions (rs : List Report) :
    ∀ st : DriverState,
      st.queued_keyboard_report_assertions = [] →
      st.permanent_keyboard_report_assertions = [] →
      (processReportList st rs).st.queued_keyboard_report_assertions = [] ∧
      (processReportList st rs).st.assertions_passed =
        st.assertions_passed := by
  induction rs with
  | nil => intro st h1 _; exact ⟨h1, rfl⟩
  | cons rd rest ih =>
    intro st h1 h2
    have hk := processKeyboardReport_no_assertions st rd h1 h2
    have hperm : (processKeyboardReport st rd).st.permanent_keyboard_report_assertions = [] :=
      ((processKeyboardReport_frame st rd).2.2.2.1).trans h2
    have hr := ih (processKeyboardReport st rd).st hk.1 hperm
    simp only [processReportList]
    exact ⟨hr.1, hr.2.trans hk.2⟩

theorem cycleInternal_no_assertions (st : DriverState) (b : Bool)
    (rs : List Report)
    (h1 : st.queued_keyboard_report_assertions = [])
    (h2 : st.permanent_keyboard_report_assertions = [])
    (h3 : st.queued_cycle_assertions = [])
    (h4 : st.permanent_cycle_assertions = []) :
    (cycleInternal st [] b rs).st.assertions_passed = st.assertions_passed ∧
    (cycleInternal st [] b rs).st.queued_keyboard_report_assertions = [] ∧
    (cycleInternal st [] b rs).st.permanent_keyboard_report_assertions = [] ∧
    (cycleInternal st [] b rs).st.queued_cycle_assertions = [] ∧
    (cycleInternal st [] b rs).st.permanent_cycle_assertions = [] := by
  have hpr := processReportList_no_assertions rs (tickStart st) h1 h2
  have hq : (accumulateTime (processReportList (tickStart st) rs).st
      (tickStart st).cycle_duration).queued_cycle_assertions = [] := by
    simpa [accumulateTime, tickStart, prl_queued_cycle] using h3
  have hp : (accumulateTime (processReportList (tickStart st) rs).st
      (tickStart st).cycle_duration).permanent_cycle_assertions = [] := by
    simpa [accumulateTime, tickStart, prl_permanent_cycle] using h4
  have hce := cycleEndAssertions_nil _ hq hp
  simp only [cycleInternal, List.isEmpty_nil, List.map_nil, ite_self]
  rw [hce]
  refine ⟨?_, ?_, ?_, ?_, ?_⟩
  · simpa [accumulateTime, tickStart] using hpr.2
  · simpa [accumulateTime] using hpr.1
  · simp [accumulateTime, tickStart, prl_permanent_kb, h2]
  · exact hq
  · exact hp

/-! ### Permanent report assertions (claim C9 support) -/

theorem processKeyboardReport_permanent_count (st : DriverState) (rd : Report)
    (a : Assertion) (hp : st.permanent_keyboard_report_assertions = [a]) :
    (processKeyboardReport st rd).st.permanent_keyboard_report_assertions =
      [a] ∧
    countPermanentEvalsOf a.aid (processKeyboardReport st rd).trace = 1 := by
  refine ⟨((processKeyboardReport_frame st rd).2.2.2.1).trans hp, ?_⟩
  cases h : st.queued_keyboard_report_assertions with
  | nil =>
    rw [processKeyboardReport_nil st rd h]
    by_cases hs : st.error_if_report_without_queued_assertions <;>
      simp [hp, hs, countPermanentEvalsOf, List.countP_append, List.countP_cons,
        isPermanentEvalOf]
  | cons q qs =>
    rw [processKeyboardReport_cons st rd q qs h]
    simp [hp, countPermanentEvalsOf, List.countP_cons, isPermanentEvalOf]

theorem processReportList_permanent_count (a : Assertion) (rs : List Report) :
    ∀ st : DriverState, st.permanent_keyboard_report_assertions = [a] →
      (processReportList st rs).st.permanent_keyboard_report_assertions =
        [a] ∧
      countPermanentEvalsOf a.aid (processReportList st rs).trace =
        rs.length := by
  induction rs with
  | nil => intro st hp; exact ⟨hp, rfl⟩
  | cons rd rest ih =>
    intro st hp
    have hk := processKeyboardReport_permanent_count st rd a hp
    have hr := ih (processKeyboardReport st rd).st hk.1
    refine ⟨hr.1, ?_⟩
    simp only [processReportList, countPermanentEvalsOf, List.countP_append,
      List.length_cons]
    simp only [countPermanentEvalsOf] at hk hr
    omega

theorem cycleEndAssertions_permanent_count (st : DriverState)
    (l : List Assertion) (aid : Nat) :
    countPermanentEvalsOf aid (cycleEndAssertions st l).trace = 0 :=
  countP_eq_zero_of _ _ (fun e he =>
    (isCycleEval_elim e (cycleEndAssertions_events st l e he)).2.1 aid)

theorem cycleInternal_permanent_count (st : DriverState) (l : List Assertion)
    (b : Bool) (rs : List Report) (a : Assertion)
    (hp : st.permanent_keyboard_report_assertions = [a]) :
    (cycleInternal st l b rs).st.permanent_keyboard_report_assertions = [a] ∧
    countPermanentEvalsOf a.aid (cycleInternal st l b rs).trace =
      rs.length := by
  have hp1 : (tickStart st).permanent_keyboard_report_assertions = [a] := hp
  have hpr := processReportList_permanent_count a rs (tickStart st) hp1
  constructor
  · exact ((cycleInternal_frame st l b rs).2.2.2.1).trans hp
  · simp only [cycleInternal, countPermanentEvalsOf, List.countP_cons,
      List.countP_append]
    simp only [countPermanentEvalsOf] at hpr
    have hce := cycleEndAssertions_permanent_count
      (accumulateTime (processReportList (tickStart st) rs).st
        (tickStart st).cycle_duration)
      (if l.isEmpty then l.map setDriver else l) a.aid
    simp only [countPermanentEvalsOf] at hce
    simp [hpr.2, hce, isPermanentEvalOf]

/-! ### Lemmas about multi-tick runs -/

theorem cyclesLoop_cycle_id (n : Nat) :
    ∀ (st : DriverState) (ca : List Assertion) (emits : Nat → List Report),
      (cyclesLoop n st ca emits).st.cycle_id = st.cycle_id + n ∧
      Event.errorCycleDurationNotSet ∉ (cyclesLoop n st ca emits).trace := by
  induction n with
  | zero => intro st ca emits; exact ⟨rfl, by simp [cyclesLoop]⟩
  | succ m ih =>
    intro st ca emits
    have hci := cycleInternal_frame st ca true (emits 0)
    have hr := ih (cycleInternal st ca true (emits 0)).st
      (cycleInternal st ca true (emits 0)).stopList (fun k => emits (k + 1))
    constructor
    · simp only [cyclesLoop]
      rw [hr.1, hci.1]
      omega
    · simp only [cyclesLoop, List.mem_append]
      rintro (h | h)
      · exact cycleInternal_no_config_error st ca true (emits 0) h
      · exact hr.2 h

theorem cyclesLoop_no_assertions (n : Nat) :
    ∀ (st : DriverState) (emits : Nat → List Report),
      st.queued_keyboard_report_assertions = [] →
      st.permanent_keyboard_report_assertions = [] →
      st.queued_cycle_assertions = [] →
      st.permanent_cycle_assertions = [] →
      (cyclesLoop n st [] emits).st.assertions_passed =
        st.assertions_passed ∧
      (cyclesLoop n st [] emits).st.queued_keyboard_report_assertions = [] ∧
      (cyclesLoop n st [] emits).st.permanent_keyboard_report_assertions = [] ∧
      (cyclesLoop n st [] emits).st.queued_cycle_assertions = [] ∧
      (cyclesLoop n st [] emits).st.permanent_cycle_assertions = [] := by
  induction n with
  | zero => intro st emits h1 h2 h3 h4; exact ⟨rfl, h1, h2, h3, h4⟩
  | succ m ih =>
    intro st emits h1 h2 h3 h4
    have hci := cycleInternal_no_assertions st true (emits 0) h1 h2 h3 h4
    have hr := ih (cycleInternal st [] true (emits 0)).st
      (fun k => emits (k + 1)) hci.2.1 hci.2.2.1 hci.2.2.2.1 hci.2.2.2.2
    simp only [cyclesLoop, cycleInternal_stopList]
    exact ⟨hr.1.trans hci.1, hr.2.1, hr.2.2.1, hr.2.2.2.1, hr.2.2.2.2⟩

theorem cyclesLoop_permanent_count (a : Assertion) (n : Nat) :
    ∀ (st : DriverState) (ca : List Assertion) (emits : Nat → List Report),
      st.permanent_keyboard_report_assertions = [a] →
      (∀ k, (emits k).length = 1) →
      (cyclesLoop n st ca emits).st.permanent_keyboard_report_assertions =
        [a] ∧
      countPermanentEvalsOf a.aid (cyclesLoop n st ca emits).trace = n := by
  induction n with
  | zero => intro st ca emits hp _; exact ⟨hp, rfl⟩
  | succ m ih =>
    intro st ca emits hp he
    have hci := cycleInternal_permanent_count st ca true (emits 0) a hp
    have hr := ih (cycleInternal st ca true (emits 0)).st
      (cycleInternal st ca true (emits 0)).stopList (fun k => emits (k + 1))
      hci.1 (fun k => he (k + 1))
    refine ⟨by simpa only [cyclesLoop] using hr.1, ?_⟩
    simp only [cyclesLoop, countPermanentEvalsOf, List.countP_append]
    simp only [countPermanentEvalsOf] at hci hr
    rw [hr.2, hci.2, he 0]
    omega

theorem cycles_core (st : DriverState) (n : Int) (os ca : List Assertion)
    (emits : Nat → List Report) :
    (cycles st n os ca emits).st.cycle_id =
      st.cycle_id +
        (if n = 0 then (st.scan_cycles_default_count : Int) else n).toNat ∧
    Event.errorCycleDurationNotSet ∉ (cycles st n os ca emits).trace := by
  cases os with
  | nil =>
    have h := cyclesLoop_cycle_id
      (if n = 0 then (st.scan_cycles_default_count : Int) else n).toNat st ca
      emits
    simpa [cycles] using h
  | cons o os' =>
    have h := cyclesLoop_cycle_id
      (if n = 0 then (st.scan_cycles_default_count : Int) else n).toNat st ca
      emits
    unfold cycles
    simp only [List.isEmpty_cons, Bool.not_false, if_true, ite_true,
      List.map_cons, List.isEmpty_nil, List.mem_append,
      processCycleAssertions_st]
    refine ⟨h.1, ?_⟩
    rintro (hm | hm)
    · exact h.2 hm
    · have := processCycleAssertions_events _ _ _ hm
      exact (isCycleEval_elim _ this).2.2 rfl

/-! ### Lemmas about time-based skipping -/

theorem skipTimeLoop_nonpos (start_time delta_t : ℚ) (fuel : Nat)
    (emits : Nat → List Report) (st : DriverState)
    (h : ¬((0 : ℚ) < delta_t)) :
    skipTimeLoop start_time delta_t fuel emits 0 st = ⟨st, [], true⟩ := by
  cases fuel <;> simp [skipTimeLoop, h]

theorem skipTimeLoop_spec (start_time delta_t : ℚ) (d : Int) (hd : 0 < d) :
    ∀ (fuel k : Nat) (emits : Nat → List Report) (st : DriverState),
      st.cycle_duration = d →
      st.time = start_time + (k : ℚ) * (d : ℚ) →
      ⌈delta_t / (d : ℚ)⌉₊ ≤ k + fuel →
      (skipTimeLoop start_time delta_t fuel emits ((k : ℚ) * (d : ℚ))
        st).terminated = true ∧
      (skipTimeLoop start_time delta_t fuel emits ((k : ℚ) * (d : ℚ))
        st).st.cycle_id = st.cycle_id + (⌈delta_t / (d : ℚ)⌉₊ - k) ∧
      (skipTimeLoop start_time delta_t fuel emits ((k : ℚ) * (d : ℚ))
        st).st.time =
        start_time + ((max k ⌈delta_t / (d : ℚ)⌉₊ : Nat) : ℚ) * (d : ℚ) ∧
      countTicks (skipTimeLoop start_time delta_t fuel emits
        ((k : ℚ) * (d : ℚ)) st).trace = ⌈delta_t / (d : ℚ)⌉₊ - k := by
  have hdq : (0 : ℚ) < (d : ℚ) := by exact_mod_cast hd
  intro fuel
  induction fuel with
  | zero =>
    intro k emits st hdur htime hle
    have hNk : ⌈delta_t / (d : ℚ)⌉₊ ≤ k := by simpa using hle
    have hcond : ¬(((k : ℚ) * (d : ℚ)) < delta_t) := by
      rw [not_lt]
      rw [Nat.ceil_le, div_le_iff₀ hdq] at hNk
      exact hNk
    simp only [skipTimeLoop, if_neg hcond]
    refine ⟨trivial, ?_, ?_, ?_⟩
    · have hz : ⌈delta_t / (d : ℚ)⌉₊ - k = 0 := by omega
      simp [hz]
    · rw [max_eq_left hNk]
      exact htime
    · have hz : ⌈delta_t / (d : ℚ)⌉₊ - k = 0 := by omega
      simp [countTicks, hz]
  | succ f ihf =>
    intro k emits st hdur htime hle
    by_cases hcond : ((k : ℚ) * (d : ℚ)) < delta_t
    · have hkN : k < ⌈delta_t / (d : ℚ)⌉₊ := by
        rw [Nat.lt_ceil, lt_div_iff₀ hdq]
        exact hcond
      have hfr := cycleInternal_frame st [] true (emits 0)
      have hrtime : (cycleInternal st [] true (emits 0)).st.time - start_time =
          (((k + 1) : Nat) : ℚ) * (d : ℚ) := by
        rw [hfr.2.1, htime, hdur]
        push_cast
        ring
      have hrec := ihf (k + 1) (fun j => emits (j + 1))
        (cycleInternal st [] true (emits 0)).st (hfr.2.2.1.trans hdur)
        (by rw [hfr.2.1, htime, hdur]; push_cast; ring) (by omega)
      have hticks := cycleInternal_countTicks st [] true (emits 0)
      simp only [skipTimeLoop, if_pos hcond]
      rw [hrtime]
      refine ⟨hrec.1, ?_, ?_, ?_⟩
      · rw [hrec.2.1, hfr.1]
        omega
      · rw [hrec.2.2.1, max_eq_right hkN, max_eq_right (Nat.le_of_lt hkN)]
      · simp only [countTicks, List.countP_append]
        have h2 := hrec.2.2.2
        simp only [countTicks] at hticks h2
        rw [h2, hticks]
        omega
    · have hNk : ⌈delta_t / (d : ℚ)⌉₊ ≤ k := by
        rw [Nat.ceil_le, div_le_iff₀ hdq]
        exact le_of_not_lt hcond
      simp only [skipTimeLoop, if_neg hcond]
      refine ⟨trivial, ?_, ?_, ?_⟩
      · have hz : ⌈delta_t / (d : ℚ)⌉₊ - k = 0 := by omega
        simp [hz]
      · rw [max_eq_left hNk]
        exact htime
      · have hz : ⌈delta_t / (d : ℚ)⌉₊ - k = 0 := by omega
        simp [countTicks, hz]


theorem checkCycleDurationSet_pos (st : DriverState)
    (h : st.cycle_duration ≠ 0) : checkCycleDurationSet st = [] := by
  simp [checkCycleDurationSet, h]

theorem processCycleAssertions_countTicks (st : DriverState)
    (l : List Assertion) :
    countTicks (processCycleAssertions st l).trace = 0 :=
  countP_eq_zero_of _ _ (fun e he =>
    (isCycleEval_elim e (processCycleAssertions_events st l e he)).1)

theorem skipTime_nil (st : DriverState) (delta_t : ℚ)
    (emits : Nat → List Report) (fuel : Nat) :
    skipTime st delta_t [] emits fuel =
      ⟨(skipTimeLoop st.time delta_t fuel emits 0 st).st, [],
        checkCycleDurationSet st ++
          (skipTimeLoop st.time delta_t fuel emits 0 st).trace,
        (skipTimeLoop st.time delta_t fuel emits 0 st).terminated⟩ := by
  unfold skipTime
  cases h : (skipTimeLoop st.time delta_t fuel emits 0 st).terminated <;>
    simp [h]

theorem skipTime_cons (st : DriverState) (delta_t : ℚ) (o : Assertion)
    (os : List Assertion) (emits : Nat → List Report) (fuel : Nat) :
    skipTime st delta_t (o :: os) emits fuel =
      if (skipTimeLoop st.time delta_t fuel emits 0 st).terminated then
        ⟨(processCycleAssertions
            (skipTimeLoop st.time delta_t fuel emits 0 st).st
            ((o :: os).map setDriver)).st,
          (o :: os).map setDriver,
          checkCycleDurationSet st ++
            (skipTimeLoop st.time delta_t fuel emits 0 st).trace ++
            (processCycleAssertions
              (skipTimeLoop st.time delta_t fuel emits 0 st).st
              ((o :: os).map setDriver)).trace,
          true⟩
      else ⟨(skipTimeLoop st.time delta_t fuel emits 0 st).st,
        (o :: os).map setDriver,
        checkCycleDurationSet st ++
          (skipTimeLoop st.time delta_t fuel emits 0 st).trace,
        false⟩ := by
  unfold skipTime
  cases h : (skipTimeLoop st.time delta_t fuel emits 0 st).terminated <;>
    simp [h]

theorem checkStatus_ok (st : DriverState) :
    (checkStatus st).ok =
      (st.queued_keyboard_report_assertions.isEmpty &&
        st.assertions_passed) := by
  unfold checkStatus
  by_cases h1 : st.queued_keyboard_report_assertions.isEmpty <;>
    by_cases h2 : st.assertions_passed <;> simp [h1, h2]

theorem checkStatus_st (st : DriverState) : (checkStatus st).st = st := by
  unfold checkStatus
  by_cases h1 : st.queued_keyboard_report_assertions.isEmpty <;>
    by_cases h2 : st.assertions_passed <;> simp [h1, h2]



theorem processCycleAssertions_countCycleEvals (st : DriverState)
    (l : List Assertion) :
    countCycleEvals (processCycleAssertions st l).trace = l.length := by
  rw [processCycleAssertions_trace]
  simp [countCycleEvals, List.countP_map, Function.comp, isCycleEval]

theorem checkCycleDurationSet_counts (st : DriverState) :
    countTicks (checkCycleDurationSet st) = 0 ∧
    countCycleEvals (checkCycleDurationSet st) = 0 := by
  by_cases h : st.cycle_duration = 0 <;>
    simp [checkCycleDurationSet, h, countTicks, countCycleEvals, isTick,
      isCycleEval]

/-! ### Concrete states and assertions used as evaluation inputs -/

/-- A concrete driver state: debug off, cycle duration 10 ms, no abort, strict
mode off, no registered assertions, counters zeroed, default cycle count 5. -/
def mkState : DriverState :=
  { debug := false
    cycle_duration := 10
    abort_on_first_error := false
    error_if_report_without_queued_assertions := false
    queued_keyboard_report_assertions := []
    permanent_keyboard_report_assertions := []
    queued_cycle_assertions := []
    permanent_cycle_assertions := []
    n_overall_keyboard_reports := 0
    n_keyboard_reports_in_cycle := 0
    cycle_id := 0
    time := 0
    assertions_passed := true
    scan_cycles_default_count := 5
    current_keyboard_report := 0 }

/-- An always-true assertion with identifier 0, not yet bound to a driver. -/
def passAssertion : Assertion :=
  { aid := 0, eval := fun _ => true, driver_bound := false }

/-- An assertion with identifier 1 checking that the current report equals 7. -/
def reportIs7 : Assertion :=
  { aid := 1, eval := fun o => o.currentReport == 7, driver_bound := false }

/-- The concrete state with exactly one queued report assertion. -/
def queuedState : DriverState :=
  { mkState with queued_keyboard_report_assertions := [reportIs7] }

/-- The concrete state with strict mode
(`error_if_report_without_queued_assertions_`) switched on. -/
def strictState : DriverState :=
  { mkState with error_if_report_without_queued_assertions := true }

/-- The concrete state whose cycle duration was never set (zero). -/
def zeroDurationState : DriverState := { mkState with cycle_duration := 0 }

/-- The concrete state with one permanent report assertion registered. -/
def permanentState : DriverState :=
  { mkState with permanent_keyboard_report_assertions := [passAssertion] }

/-! ### Claim theorems -/

/-- Claim C1: a report delivered while the queued-report assertion queue is
non-empty causes `processKeyboardReport` to remove exactly the front
(earliest-pushed, FIFO) assertion — the queue becomes its tail and its size
decreases by exactly one — and to evaluate that assertion against this very
report (the observation passed to `eval` carries the just-stored report), as
the first emission of the step. -/
theorem processKeyboardReport_consumes_one_queued (st : DriverState)
    (rd : Report) (a : Assertion) (rest : List Assertion)
    (h : st.queued_keyboard_report_assertions = a :: rest) :
    (processKeyboardReport st rd).st.queued_keyboard_report_assertions =
      rest ∧
    (processKeyboardReport st rd).st.queued_keyboard_report_assertions.length
      + 1 = st.queued_keyboard_report_assertions.length ∧
    (processKeyboardReport st rd).trace.head? =
      some (Event.evalQueuedReport a.aid (a.eval (reportObs st rd))) := by
  rw [processKeyboardReport_cons st rd a rest h]
  refine ⟨rfl, ?_, rfl⟩
  simp [h]

/-- Witness for claim C1 at a concrete input: one queued assertion expecting
report 7, and report 7 delivered. -/
theorem processKeyboardReport_consumes_one_queued_witness :
    (processKeyboardReport queuedState
      7).st.queued_keyboard_report_assertions = [] ∧
    (processKeyboardReport queuedState
      7).st.queued_keyboard_report_assertions.length + 1 =
      queuedState.queued_keyboard_report_assertions.length ∧
    (processKeyboardReport queuedState 7).trace.head? =
      some (Event.evalQueuedReport 1 true) := by
  have h := processKeyboardReport_consumes_one_queued queuedState 7
    reportIs7 [] rfl
  refine ⟨h.1, h.2.1, ?_⟩
  rw [h.2.2]
  rfl

/-- Claim C2 (code-bug evaluation): at a concrete tick with the non-empty
transient stop list `[passAssertion]`, `cycleInternal` returns the list with
its driver-binding flag still unset — `setDriver` is never applied to a
non-empty list, because the binding loop at Driver.cpp:337 is guarded by
`empty()` instead of `!empty()` and therefore only ever iterates over an
empty list. -/
theorem cycleInternal_stop_binding_skipped :
    (cycleInternal mkState [passAssertion] true []).stopList.map
      Assertion.driver_bound = [false] ∧
    (cycleInternal mkState [passAssertion] true []).stopList.map
      Assertion.driver_bound ≠ [true] := by
  decide

/-- Claim C3 (counterexample): with strict mode on, an empty queue and a
report delivered, the underflow error is emitted but the aggregate pass flag
stays `true` and `checkStatus` still returns `true` — refuting the claim that
the failure is accumulated into the pass flag so that `checkStatus`
subsequently returns `false`. -/
theorem strict_underflow_not_accumulated_cex :
    Event.errorReportWithoutQueued ∈
      (processKeyboardReport strictState 0).trace ∧
    (processKeyboardReport strictState 0).st.assertions_passed = true ∧
    (checkStatus (processKeyboardReport strictState 0).st).ok = true := by
  decide

/-- Claim C3 (amended): when a report arrives with the queue empty and strict
mode set, the failure is recorded only as an error-sink emission; it is not
accumulated into the aggregate pass flag — with no permanent assertions
involved the flag is unchanged and the result of `checkStatus` is
unaffected. -/
theorem strict_underflow_error_only (st : DriverState) (rd : Report)
    (hq : st.queued_keyboard_report_assertions = [])
    (hs : st.error_if_report_without_queued_assertions = true)
    (hp : st.permanent_keyboard_report_assertions = []) :
    (processKeyboardReport st rd).trace =
      [Event.errorReportWithoutQueued] ∧
    (processKeyboardReport st rd).st.assertions_passed =
      st.assertions_passed ∧
    (checkStatus (processKeyboardReport st rd).st).ok =
      (checkStatus st).ok := by
  rw [processKeyboardReport_nil st rd hq]
  refine ⟨by simp [hp, hs], by simp [hp], ?_⟩
  rw [checkStatus_ok, checkStatus_ok]
  simp [hp, hq]

/-- Witness for the amended claim C3 at a concrete input. -/
theorem strict_underflow_error_only_witness :
    (processKeyboardReport strictState 3).trace =
      [Event.errorReportWithoutQueued] ∧
    (processKeyboardReport strictState 3).st.assertions_passed =
      strictState.assertions_passed ∧
    (checkStatus (processKeyboardReport strictState 3).st).ok =
      (checkStatus strictState).ok :=
  strict_underflow_error_only strictState 3 rfl rfl rfl

/-- Claim C7: `checkStatus` returns false exactly when the queued-report
assertion queue is non-empty or the aggregate pass flag is false; it returns
the driver state unchanged (the method is `const` — it mutates nothing and
only emits diagnostics), so an immediate second call yields the same
result. -/
theorem checkStatus_false_iff (st : DriverState) :
    ((checkStatus st).ok = false ↔
      st.queued_keyboard_report_assertions ≠ [] ∨
        st.assertions_passed = false) ∧
    (checkStatus st).st = st ∧
    (checkStatus ((checkStatus st).st)).ok = (checkStatus st).ok := by
  refine ⟨?_, checkStatus_st st, by rw [checkStatus_st st]⟩
  rw [checkStatus_ok]
  cases hq : st.queued_keyboard_report_assertions <;>
    cases hp : st.assertions_passed <;> simp [hq, hp]


/-- Claim C4: for every positive cycle duration d and positive requested skip
time deltaT, with enough fuel to cover the loop, `skipTime` terminates having
advanced exactly `⌈deltaT / d⌉` ticks (in cycle-id increments and in tick
events), and afterwards the elapsed time since the call's start is at least
deltaT.  The witness instantiates d = 10 and deltaT = 25: exactly 3 ticks. -/
theorem skipTime_advances_ceil_ticks (st : DriverState) (delta_t : ℚ)
    (on_stop : List Assertion) (emits : Nat → List Report) (fuel : Nat)
    (hd : 0 < st.cycle_duration) (hdt : 0 < delta_t)
    (hfuel : ⌈delta_t / (st.cycle_duration : ℚ)⌉₊ ≤ fuel) :
    (skipTime st delta_t on_stop emits fuel).terminated = true ∧
    (skipTime st delta_t on_stop emits fuel).st.cycle_id =
      st.cycle_id + ⌈delta_t / (st.cycle_duration : ℚ)⌉₊ ∧
    countTicks (skipTime st delta_t on_stop emits fuel).trace =
      ⌈delta_t / (st.cycle_duration : ℚ)⌉₊ ∧
    delta_t ≤ (skipTime st delta_t on_stop emits fuel).st.time - st.time := by
  have hdq : (0 : ℚ) < (st.cycle_duration : ℚ) := by exact_mod_cast hd
  have hspec := skipTimeLoop_spec st.time delta_t st.cycle_duration hd fuel 0
    emits st rfl (by simp) (by simpa using hfuel)
  rw [show ((0 : Nat) : ℚ) * ((st.cycle_duration : Int) : ℚ) = 0 by simp]
    at hspec
  have hmax : (max 0 ⌈delta_t / ((st.cycle_duration : Int) : ℚ)⌉₊ : Nat) =
      ⌈delta_t / ((st.cycle_duration : Int) : ℚ)⌉₊ :=
    max_eq_right (Nat.zero_le _)
  have hge : delta_t ≤
      ((⌈delta_t / ((st.cycle_duration : Int) : ℚ)⌉₊ : Nat) : ℚ) *
        (st.cycle_duration : ℚ) :=
    (div_le_iff₀ hdq).mp (Nat.le_ceil _)
  have he0 : checkCycleDurationSet st = [] :=
    checkCycleDurationSet_pos st (by omega)
  have he0t : countTicks (checkCycleDurationSet st) = 0 := by
    rw [he0]; rfl
  cases on_stop with
  | nil =>
    rw [skipTime_nil, he0]
    refine ⟨hspec.1, ?_, ?_, ?_⟩
    · rw [hspec.2.1]
      simp
    · simpa using hspec.2.2.2
    · rw [hspec.2.2.1, hmax]
      linarith
  | cons o os =>
    rw [skipTime_cons, if_pos (by rw [hspec.1])]
    refine ⟨rfl, ?_, ?_, ?_⟩
    · simp only [processCycleAssertions_st]
      rw [hspec.2.1]
      simp
    · simp only [countTicks, List.countP_append]
      have h1 := hspec.2.2.2
      have h2 := processCycleAssertions_countTicks
        (skipTimeLoop st.time delta_t fuel emits 0 st).st
        ((o :: os).map setDriver)
      simp only [countTicks] at h1 h2 he0t
      rw [h1, h2, he0t]
      omega
    · simp only [processCycleAssertions_st]
      rw [hspec.2.2.1, hmax]
      linarith

/-- Witness for claim C4: duration 10, deltaT 25, fuel 3 — exactly 3 ticks run
and 30 ≥ 25 elapse. -/
theorem skipTime_advances_ceil_ticks_witness :
    0 < mkState.cycle_duration ∧ (0 : ℚ) < 25 ∧
    (skipTime mkState 25 [] (fun _ => []) 3).terminated = true ∧
    (skipTime mkState 25 [] (fun _ => []) 3).st.cycle_id = 3 ∧
    countTicks (skipTime mkState 25 [] (fun _ => []) 3).trace = 3 ∧
    (25 : ℚ) ≤ (skipTime mkState 25 [] (fun _ => []) 3).st.time -
      mkState.time := by
  have hceil : ⌈(25 : ℚ) / ((mkState.cycle_duration : Int) : ℚ)⌉₊ = 3 := by
    simp only [show mkState.cycle_duration = 10 from rfl]
    rw [Nat.ceil_eq_iff (by norm_num)]
    norm_num
  have h := skipTime_advances_ceil_ticks mkState 25 [] (fun _ => []) 3
    (by decide) (by norm_num) (by rw [hceil])
  refine ⟨by decide, by norm_num, h.1, ?_, ?_, h.2.2.2⟩
  · rw [h.2.1, hceil]
    rfl
  · rw [h.2.2.1, hceil]

/-- Claim C5: whenever `skipTime` is called while the configured cycle
duration is zero, a configuration error is reported through the error sink as
the very first emission of the call — in particular before any tick (any
time-based skipping) takes place. -/
theorem skipTime_reports_duration_unset (st : DriverState) (delta_t : ℚ)
    (on_stop : List Assertion) (emits : Nat → List Report) (fuel : Nat)
    (h : st.cycle_duration = 0) :
    ∃ tr, (skipTime st delta_t on_stop emits fuel).trace =
      Event.errorCycleDurationNotSet :: tr := by
  have he : checkCycleDurationSet st = [Event.errorCycleDurationNotSet] := by
    simp [checkCycleDurationSet, h]
  cases on_stop with
  | nil =>
    rw [skipTime_nil, he]
    exact ⟨_, rfl⟩
  | cons o os =>
    rw [skipTime_cons]
    by_cases ht : (skipTimeLoop st.time delta_t fuel emits 0 st).terminated
    · rw [if_pos ht, he]
      refine ⟨(skipTimeLoop st.time delta_t fuel emits 0 st).trace ++
        (processCycleAssertions
          (skipTimeLoop st.time delta_t fuel emits 0 st).st
          ((o :: os).map setDriver)).trace, by simp⟩
    · rw [if_neg ht, he]
      exact ⟨_, rfl⟩

/-- Witness for claim C5 at a concrete input: duration 0, deltaT 5. -/
theorem skipTime_reports_duration_unset_witness :
    zeroDurationState.cycle_duration = 0 ∧
    ∃ tr, (skipTime zeroDurationState 5 [] (fun _ => []) 2).trace =
      Event.errorCycleDurationNotSet :: tr :=
  ⟨rfl, skipTime_reports_duration_unset zeroDurationState 5 [] (fun _ => [])
    2 rfl⟩

/-- Claim C6 (counterexample): calling `cycles` with the negative count -1
runs zero ticks and emits no configuration error at all — refuting the claim
that a negative count fails with a `ConfigurationError` (the source's
`for(int i = 0; i < n; ++i)` simply does not run). -/
theorem cycles_negative_no_error_cex :
    (cycles mkState (-1) [] [] (fun _ => [])).st.cycle_id = 0 ∧
    Event.errorCycleDurationNotSet ∉
      (cycles mkState (-1) [] [] (fun _ => [])).trace := by
  decide

/-- Claim C6 (amended): `cycles` advances exactly n ticks for positive n and
the configured default count for n = 0; for a negative n it advances zero
ticks and reports no configuration error. -/
theorem cycles_tick_counts (st : DriverState) (n : Int)
    (os ca : List Assertion) (emits : Nat → List Report) :
    (0 < n → (cycles st n os ca emits).st.cycle_id =
      st.cycle_id + n.toNat) ∧
    (n = 0 → (cycles st n os ca emits).st.cycle_id =
      st.cycle_id + st.scan_cycles_default_count) ∧
    (n < 0 → (cycles st n os ca emits).st.cycle_id = st.cycle_id ∧
      Event.errorCycleDurationNotSet ∉
        (cycles st n os ca emits).trace) := by
  have h := cycles_core st n os ca emits
  refine ⟨?_, ?_, ?_⟩
  · intro hn
    rw [h.1, if_neg (by omega)]
  · intro hn
    subst hn
    rw [h.1, if_pos rfl, Int.toNat_natCast]
  · intro hn
    refine ⟨?_, h.2⟩
    rw [h.1, if_neg (by omega), Int.toNat_of_nonpos (le_of_lt hn)]
    omega

/-- Witness for the amended claim C6 at concrete inputs n = 2, 0, -3. -/
theorem cycles_tick_counts_witness :
    (cycles mkState 2 [] [] (fun _ => [])).st.cycle_id =
      mkState.cycle_id + 2 ∧
    (cycles mkState 0 [] [] (fun _ => [])).st.cycle_id =
      mkState.cycle_id + mkState.scan_cycles_default_count ∧
    (cycles mkState (-3) [] [] (fun _ => [])).st.cycle_id =
      mkState.cycle_id := by
  refine ⟨?_, ?_, ?_⟩
  · have h := (cycles_tick_counts mkState 2 [] [] (fun _ => [])).1
      (by decide)
    simpa using h
  · exact (cycles_tick_counts mkState 0 [] [] (fun _ => [])).2.1 rfl
  · exact ((cycles_tick_counts mkState (-3) [] [] (fun _ => [])).2.2
      (by decide)).1

/-- Claim C8: running N > 0 scheduled ticks via `cycles` on a state with no
assertions registered increments the cycle id by exactly N — the counter is
incremented exactly once per tick and is monotonically increasing — and the
aggregate pass flag remains true. -/
theorem cycles_no_assertions_cycle_id (st : DriverState) (N : Nat)
    (emits : Nat → List Report) (hN : 0 < N)
    (h1 : st.queued_keyboard_report_assertions = [])
    (h2 : st.permanent_keyboard_report_assertions = [])
    (h3 : st.queued_cycle_assertions = [])
    (h4 : st.permanent_cycle_assertions = [])
    (h5 : st.assertions_passed = true) :
    (cycles st (N : Int) [] [] emits).st.cycle_id = st.cycle_id + N ∧
    (cycles st (N : Int) [] [] emits).st.assertions_passed = true := by
  have hne : ¬((N : Int) = 0) := by
    simp only [Int.natCast_eq_zero]
    omega
  have hloop := cyclesLoop_no_assertions N st emits h1 h2 h3 h4
  have hcid := cyclesLoop_cycle_id N st [] emits
  unfold cycles
  rw [if_neg hne]
  simp only [List.isEmpty_nil, Bool.not_true, Bool.false_eq_true, if_false,
    Int.toNat_natCast]
  exact ⟨hcid.1, hloop.1.trans h5⟩

/-- Witness for claim C8 at a concrete input: 3 ticks from a fresh state. -/
theorem cycles_no_assertions_cycle_id_witness :
    (cycles mkState ((3 : Nat) : Int) [] [] (fun _ => [])).st.cycle_id =
      mkState.cycle_id + 3 ∧
    (cycles mkState ((3 : Nat) : Int) [] []
      (fun _ => [])).st.assertions_passed = true :=
  cycles_no_assertions_cycle_id mkState 3 (fun _ => [])
    (by decide) rfl rfl rfl rfl rfl

/-- Claim C9: with a single permanent report assertion registered, running
K > 0 ticks via `cycles`, each tick emitting exactly one report, evaluates
that assertion exactly K times — once per report — and the assertion is still
registered (never removed by evaluation) afterwards. -/
theorem permanent_assertion_evaluated_every_report (st : DriverState)
    (a : Assertion) (K : Nat) (emits : Nat → List Report) (hK : 0 < K)
    (hp : st.permanent_keyboard_report_assertions = [a])
    (he : ∀ k, (emits k).length = 1) :
    (cycles st (K : Int) [] []
      emits).st.permanent_keyboard_report_assertions = [a] ∧
    countPermanentEvalsOf a.aid
      (cycles st (K : Int) [] [] emits).trace = K := by
  have hne : ¬((K : Int) = 0) := by
    simp only [Int.natCast_eq_zero]
    omega
  have hloop := cyclesLoop_permanent_count a K st [] emits hp he
  unfold cycles
  rw [if_neg hne]
  simp only [List.isEmpty_nil, Bool.not_true, Bool.false_eq_true, if_false,
    Int.toNat_natCast]
  exact hloop

/-- Witness for claim C9 at a concrete input: one permanent assertion, two
ticks, one report each. -/
theorem permanent_assertion_evaluated_every_report_witness :
    (cycles permanentState ((2 : Nat) : Int) [] []
      (fun _ => [9])).st.permanent_keyboard_report_assertions =
      [passAssertion] ∧
    countPermanentEvalsOf passAssertion.aid
      (cycles permanentState ((2 : Nat) : Int) [] []
        (fun _ => [9])).trace = 2 :=
  permanent_assertion_evaluated_every_report permanentState passAssertion 2
    (fun _ => [9]) (by decide) rfl (fun _ => rfl)

/-- Claim C10: for deltaT ≤ 0, `skipTime` advances zero ticks (the loop test
`elapsed_time < deltaT` is false initially since `elapsed_time` starts at 0),
leaves the cycle id and the elapsed time unchanged, and still evaluates each
passed stop assertion once when that list is non-empty. -/
theorem skipTime_nonpositive_delta (st : DriverState) (delta_t : ℚ)
    (on_stop : List Assertion) (emits : Nat → List Report) (fuel : Nat)
    (h : delta_t ≤ 0) :
    (skipTime st delta_t on_stop emits fuel).terminated = true ∧
    (skipTime st delta_t on_stop emits fuel).st.cycle_id = st.cycle_id ∧
    (skipTime st delta_t on_stop emits fuel).st.time = st.time ∧
    countTicks (skipTime st delta_t on_stop emits fuel).trace = 0 ∧
    (on_stop ≠ [] →
      countCycleEvals (skipTime st delta_t on_stop emits fuel).trace =
        on_stop.length) := by
  have hloop := skipTimeLoop_nonpos st.time delta_t fuel emits st
    (not_lt.mpr h)
  have hcfg := checkCycleDurationSet_counts st
  cases on_stop with
  | nil =>
    rw [skipTime_nil, hloop]
    refine ⟨rfl, rfl, rfl, ?_, by simp⟩
    simp only [countTicks, List.countP_append, List.countP_nil]
    simp only [countTicks] at hcfg
    omega
  | cons o os =>
    rw [skipTime_cons, hloop]
    rw [if_pos rfl]
    have hst := processCycleAssertions_st st ((o :: os).map setDriver)
    have hcc := processCycleAssertions_countTicks st ((o :: os).map setDriver)
    have hce := processCycleAssertions_countCycleEvals st
      ((o :: os).map setDriver)
    refine ⟨rfl, by rw [hst], by rw [hst], ?_, fun _ => ?_⟩
    · simp only [countTicks, List.countP_append, List.countP_nil]
      simp only [countTicks] at hcfg hcc
      omega
    · simp only [countCycleEvals, List.countP_append, List.countP_nil]
      simp only [countCycleEvals] at hcfg hce
      rw [List.length_map] at hce
      omega

/-- Witness for claim C10 at a concrete input: deltaT = -1 with one stop
assertion. -/
theorem skipTime_nonpositive_delta_witness :
    (skipTime mkState (-1) [passAssertion]
      (fun _ => []) 4).terminated = true ∧
    (skipTime mkState (-1) [passAssertion] (fun _ => []) 4).st.cycle_id =
      mkState.cycle_id ∧
    (skipTime mkState (-1) [passAssertion] (fun _ => []) 4).st.time =
      mkState.time ∧
    countTicks
      (skipTime mkState (-1) [passAssertion] (fun _ => []) 4).trace = 0 ∧
    countCycleEvals
      (skipTime mkState (-1) [passAssertion] (fun _ => []) 4).trace = 1 := by
  have h := skipTime_nonpositive_delta mkState (-1) [passAssertion]
    (fun _ => []) 4 (by norm_num)
  exact ⟨h.1, h.2.1, h.2.2.1, h.2.2.2.1,
    by simpa using h.2.2.2.2 (by simp)⟩

end Papilio
